import Mathlib

/-!
Verification of the SU2-Workflow post-processing and automation scripts.

The development shallowly embeds the two Python source files:
- `plot.py` (namespace `Plot`): the experimental-data parser
  `load_exp_data`, the field sampler and normalizer
  `process_simulation_data`, and the comparison loop `create_plots`.
- `automation.py` (namespace `Automation`): the pipeline orchestrator
  `main` with its two process-running stages.

Python strings are modelled as lists of characters; Python floats as
rationals; Python dicts as insertion-ordered association lists whose
assignment updates an existing key in place.  All definitions are
structurally recursive so that concrete instances evaluate by kernel
reduction.
-/

namespace Plot

/-- A text line, modelled as a list of characters (one Python str). -/
abbrev Line := List Char

/-- One parsed data row: the tuple (Y_mm, U_m_s, U_norm) taken from
fields 1, 2, 4 of a data line, as in the pandas DataFrame columns. -/
abbrev Row := ℚ × ℚ × ℚ

/-- Model of Python str.strip: drop whitespace from both ends. -/
def pyStrip (l : Line) : Line :=
  ((l.dropWhile Char.isWhitespace).reverse.dropWhile Char.isWhitespace).reverse

/-- Model of the check line.startswith of the comment character,
applied to the raw (unstripped) line. -/
def startsWithHash : Line → Bool
  | [] => false
  | c :: _ => c == '#'

/-- Whether the pattern is an initial segment of the line. -/
def leadsWith : Line → Line → Bool
  | [], _ => true
  | _ :: _, [] => false
  | p :: ps, c :: cs => p == c && leadsWith ps cs

/-- Model of the Python substring test (pat in line). -/
def containsSub (pat : Line) : Line → Bool
  | [] => leadsWith pat []
  | c :: cs => leadsWith pat (c :: cs) || containsSub pat cs

/-- Model of Python str.split with a one-character separator: returns
the (always nonempty) list of segments, keeping empty segments. -/
def splitChar (sep : Char) : Line → List Line
  | [] => [[]]
  | c :: cs =>
    if c = sep then [] :: splitChar sep cs
    else
      match splitChar sep cs with
      | s :: ss => (c :: s) :: ss
      | [] => [[c]]

/-- Model of the source call replace of the two-character unit suffix
(the letters m m) by the empty string: removes every occurrence,
scanning left to right, exactly as Python str.replace does. -/
def replaceMM : Line → Line
  | 'm' :: 'm' :: rest => replaceMM rest
  | c :: rest => c :: replaceMM rest
  | [] => []

/-- Model of Python str.split with no argument: split on runs of
whitespace, discarding empty tokens. -/
def splitWsAux : Line → Line → List Line
  | [], acc => if acc.isEmpty then [] else [acc.reverse]
  | c :: cs, acc =>
    if c.isWhitespace then
      if acc.isEmpty then splitWsAux cs [] else acc.reverse :: splitWsAux cs []
    else splitWsAux cs (c :: acc)

/-- Model of Python str.split with no argument. -/
def splitWs (l : Line) : List Line := splitWsAux l []

/-- Numeric value of a digit string (most significant digit first). -/
def digitsVal (ds : List Char) : Nat :=
  ds.foldl (fun n c => 10 * n + (c.toNat - 48)) 0

/-- Consume an optional leading sign; returns (isNegative, rest). -/
def pySign : List Char → Bool × List Char
  | '-' :: cs => (true, cs)
  | '+' :: cs => (false, cs)
  | cs => (false, cs)

/-- Exponent part of a float literal: optional sign then at least one
digit, which must end the string.  The mantissa is carried as an exact
integer fraction num over den. -/
def pyExp (num : Int) (den : Nat) (rest : List Char) : Option ℚ :=
  let (eneg, r) := pySign rest
  let (eds, r2) := r.span Char.isDigit
  if eds.isEmpty then none
  else if !r2.isEmpty then none
  else some (if eneg then mkRat num (den * 10 ^ digitsVal eds)
             else mkRat (num * 10 ^ digitsVal eds) den)

/-- Model of Python float() on a string: surrounding whitespace is
stripped, then sign, integer digits, optional fractional part and
optional exponent; at least one digit is required.  Only finite
decimal literals are modelled (inf and nan never occur in the inputs
the claims are about).  The value is the exact rational denoted by the
literal, built with mkRat from integer arithmetic. -/
def pyFloat (s : Line) : Option ℚ :=
  let t := pyStrip s
  let (neg, r0) := pySign t
  let (ip, r1) := r0.span Char.isDigit
  let (fp, r2) :=
    match r1 with
    | '.' :: rest => rest.span Char.isDigit
    | _ => (([] : List Char), r1)
  if ip.isEmpty && fp.isEmpty then none
  else
    let n : Int := (digitsVal ip * 10 ^ fp.length + digitsVal fp : Nat)
    let num : Int := if neg then -n else n
    let den : Nat := 10 ^ fp.length
    match r2 with
    | [] => some (mkRat num den)
    | 'e' :: rest => pyExp num den rest
    | 'E' :: rest => pyExp num den rest
    | _ => none

/-- Model of Python int() applied to a finite float: truncation toward
zero. -/
def truncQ (q : ℚ) : Int := q.num.tdiv (q.den : Int)

/-- Lookup in a Python dict modelled as an association list. -/
def dictGet {α : Type} (k : Int) : List (Int × α) → Option α
  | [] => none
  | (k0, v0) :: rest => if k0 = k then some v0 else dictGet k rest

/-- Assignment in a Python dict modelled as an association list: an
existing key is updated in place (keeping its first-insertion
position), a new key is appended at the end. -/
def dictSet {α : Type} (k : Int) (v : α) : List (Int × α) → List (Int × α)
  | [] => [(k, v)]
  | (k0, v0) :: rest => if k0 = k then (k, v) :: rest else (k0, v0) :: dictSet k v rest

/-- The zone-start marker text searched for in each line. -/
def zoneMarker : Line := "ZONE T=".toList

/-- The column-header marker text searched for in each line. -/
def variablesMarker : Line := "VARIABLES".toList

/-- The quoted zone label, parsed as a Python float: the source takes
the second-to-last quote-delimited segment of the line (a Python
index of minus two, an IndexError if there are fewer than two quote
characters, caught by the bare except), then the text after the last
equals sign, removes the unit suffix, and calls float. -/
def zoneLabelQ (line : Line) : Option ℚ :=
  let segs := splitChar '"' line
  if segs.length ≥ 2 then
    match segs.get? (segs.length - 2) with
    | some seg => pyFloat (replaceMM ((splitChar '=' seg).getLastD []))
    | none => none
  else none

/-- The Spatial Key of a zone-start line: the source computes
int(float(label)), so the label value is truncated toward zero.  A
failure of any step is caught by the bare except and yields none. -/
def extractKey (line : Line) : Option Int := (zoneLabelQ line).map truncQ

/-- Parse one whitespace-separated data row: every token must parse as
a float (otherwise the ValueError handler skips the row), and the row
contributes a sample only when it has at least 5 fields, taking fields
1, 2 and 4. -/
def parseRow (line : Line) : Option Row :=
  match (splitWs line).mapM pyFloat with
  | none => none
  | some parts =>
    if h : 5 ≤ parts.length then
      some (parts.get ⟨1, by omega⟩, parts.get ⟨2, by omega⟩, parts.get ⟨4, by omega⟩)
    else none

/-- The mutable state of the parsing loop in load_exp_data: the key of
the currently open zone (current_x), the rows accumulated so far
(current_data) and the committed result mapping (exp_data). -/
structure PState where
  current_x : Option Int
  current_data : List Row
  exp_data : List (Int × List Row)
deriving DecidableEq

/-- Committing the open zone: exp_data gains the accumulated rows
under the current key exactly when a zone is open and has at least one
row, mirroring the guard current_x is not None and current_data. -/
def commitZone (st : PState) : List (Int × List Row) :=
  match st.current_x with
  | some x => if st.current_data = [] then st.exp_data else dictSet x st.current_data st.exp_data
  | none => st.exp_data

/-- The zone-start branch of the loop: the open zone is committed
first; then, if the quoted label parses, a new zone opens with an
empty row list; if it does not, the continue statement skips the rest
of the iteration, so current_x and current_data keep their previous
values (in particular current_data is not cleared). -/
def zoneStep (st : PState) (line : Line) : PState :=
  match extractKey line with
  | some k => ⟨some k, [], commitZone st⟩
  | none => ⟨st.current_x, st.current_data, commitZone st⟩

/-- One iteration of the loop over preprocessed lines in
load_exp_data. -/
def parseLine (st : PState) (line : Line) : PState :=
  if containsSub zoneMarker line then zoneStep st line
  else if containsSub variablesMarker line then st
  else
    match parseRow line with
    | some r => ⟨st.current_x, st.current_data ++ [r], st.exp_data⟩
    | none => st

/-- The line preprocessing in load_exp_data: a raw file line is kept
when its stripped form is nonempty and the raw line does not start
with the comment character; kept lines are replaced by their stripped
form.  Raw lines are the lines of the file without the trailing
newline (which stripping would remove anyway). -/
def preprocess (rawLines : List Line) : List Line :=
  (rawLines.filter (fun l => !(pyStrip l).isEmpty && !startsWithHash l)).map pyStrip

/-- Running the parsing loop from a given state. -/
def runLines (st : PState) (ls : List Line) : PState := ls.foldl parseLine st

/-- The experimental-data parser of plot.py: preprocess the raw lines,
fold the per-line loop from the empty state, and commit a zone left
open at end of input.  File reading and the exception-wrapping shell
around the loop are outside the model; the loop itself raises nothing,
every risky step being guarded by a silent handler. -/
def load_exp_data (rawLines : List Line) : List (Int × List Row) :=
  commitZone (runLines ⟨none, [], []⟩ (preprocess rawLines))

/-- The streamwise probe positions in millimeters (x_positions_mm). -/
def x_positions_mm : List Int := [1, 50, 200, 650, 950]

/-- The probe positions in meters (x_positions_m). -/
def x_positions_m : List ℚ := x_positions_mm.map (fun x => mkRat x 1000)

/-- The reference velocity U1 = 22.40 m per s. -/
def U1 : ℚ := mkRat 2240 100

/-- The velocity scale deltaU = 19.14 m per s. -/
def deltaU : ℚ := mkRat 1914 100

/-- The length-scale table delta_omega (vorticity thickness in mm),
keyed by streamwise position in millimeters. -/
def delta_omega : List (Int × ℚ) :=
  [(1, mkRat 5236 1000), (50, mkRat 88583 10000),
   (200, mkRat 13771 1000), (650, mkRat 35894 1000), (950, mkRat 50547 1000)]

/-- Velocity normalization with explicit parameters, the formula of
the line computing U_norm: (rawVelocity - referenceVelocity) divided
by velocityScale.  The source instantiates it at U1 and deltaU; the
spec treats the two constants as configuration. -/
def normalizeUWith (ref scale u : ℚ) : ℚ := (u - ref) / scale

/-- The U_norm field of the mesh: normalizeUWith at the campaign
constants U1 and deltaU. -/
def normalizeU (u : ℚ) : ℚ := normalizeUWith U1 deltaU u

/-- One simulation profile: the normalized cross-stream positions and
normalized velocities along one probe line, in probe order. -/
structure SimProfile where
  y_norm : List ℚ
  u_norm : List ℚ
deriving DecidableEq

/-- The loop body of process_simulation_data, one iteration per
(x_m, x_mm) pair.  The probe argument abstracts the external
sample_over_line call, returning the interpolated (y in meters, raw
velocity) points of the line at a given x_m.  A length-scale lookup on
a key absent from the table raises a KeyError, which the enclosing
handler logs and re-raises, so the whole call aborts with that key and
the partially built results dict is discarded. -/
def processLoop (probe : ℚ → List (ℚ × ℚ)) (lenScale : List (Int × ℚ)) :
    List (ℚ × Int) → List (Int × SimProfile) → Except Int (List (Int × SimProfile))
  | [], results => .ok results
  | (x_m, x_mm) :: rest, results =>
    let pts := probe x_m
    let y_vals := pts.map (fun p => p.1 * 1000)
    match dictGet x_mm lenScale with
    | none => .error x_mm
    | some d =>
      let y_norm := y_vals.map (fun y => y / d)
      let u_norm := pts.map (fun p => normalizeU p.2)
      processLoop probe lenScale rest (dictSet x_mm ⟨y_norm, u_norm⟩ results)

/-- The field sampler and normalizer of plot.py.  The source hardwires
the position list and the length-scale table; they are passed here as
the explicit configuration the spec describes, and the defaults above
reproduce the source exactly.  The result is ok with the results dict,
or error with the key whose length-scale lookup raised. -/
def process_simulation_data (probe : ℚ → List (ℚ × ℚ)) (lenScale : List (Int × ℚ))
    (positions : List (ℚ × Int)) : Except Int (List (Int × SimProfile)) :=
  processLoop probe lenScale positions []

/-- Claim-side characterization for the parser: the keys emitted when
the scan state (open key cx, whether at least one row accumulated cd)
is flushed. -/
def emitKeys (cx : Option Int) (cd : Bool) : List Int :=
  match cx with
  | some x => if cd then [x] else []
  | none => []

/-- Claim-side characterization for the parser: the keys of every zone
that is committed with at least one accumulated row while scanning the
given preprocessed lines from scan state (cx, cd).  A valid zone
marker flushes the open zone and opens a new one; an invalid marker
flushes but leaves the scan state in place; a data row marks the open
zone nonempty; end of input flushes. -/
def zonesWithRows : Option Int → Bool → List Line → List Int
  | cx, cd, [] => emitKeys cx cd
  | cx, cd, l :: ls =>
    if containsSub zoneMarker l then
      emitKeys cx cd ++
        (match extractKey l with
         | some k => zonesWithRows (some k) false ls
         | none => zonesWithRows cx cd ls)
    else if containsSub variablesMarker l then zonesWithRows cx cd ls
    else
      match parseRow l with
      | some _ => zonesWithRows cx true ls
      | none => zonesWithRows cx cd ls

/-- Claim-side helper for the sampler: the first requested key, in
request order, that has no entry in the length-scale table. -/
def firstMissingKey (lenScale : List (Int × ℚ)) : List (ℚ × Int) → Option Int
  | [] => none
  | (_, x_mm) :: rest =>
    match dictGet x_mm lenScale with
    | none => some x_mm
    | some _ => firstMissingKey lenScale rest

/-- One comparison figure produced by create_plots: the key, and the
simulation and experimental series drawn on it when present. -/
structure PlotEntry where
  key : Int
  sim : Option SimProfile
  expSeries : Option (List Row)
deriving DecidableEq

/-- The comparison loop of create_plots: one figure per key of the
fixed list x_positions_mm, drawing the simulation series when
sim_results holds the key and the experimental series when exp_data
holds the key.  Figure styling and file output are rendering, outside
the model. -/
def create_plots (exp_data : List (Int × List Row))
    (sim_results : List (Int × SimProfile)) : List PlotEntry :=
  x_positions_mm.map (fun x_mm => ⟨x_mm, dictGet x_mm sim_results, dictGet x_mm exp_data⟩)

end Plot

namespace Automation

/-- The outcome of one subprocess.run call, as observed by the script:
a clean exit with captured output, a non-zero exit (CalledProcessError
under check true), a timeout (TimeoutExpired), or a failure to launch
at all.  Captured stdout is the list of its lines; stderr is kept as
one string. -/
inductive ProcOutcome where
  | ok (stdout : List String) (stderr : String)
  | nonzero (code : Int) (stdout : List String) (stderr : String)
  | timeout
  | launchFail
deriving DecidableEq

/-- The diagnostics printed by a CalledProcessError handler: the exit
code, the stdout lines the handler prints, and the stderr text it
prints. -/
structure FailureDiag where
  code : Int
  stdoutTail : List String
  stderrText : String
deriving DecidableEq

/-- Model of the Python slice keeping the last n lines. -/
def lastN (n : Nat) (l : List String) : List String := l.drop (l.length - n)

/-- The solver stage run_su2_simulation: on a clean exit the expected
artifact vol_solution.vtu must exist, otherwise the FileNotFoundError
reaches the generic handler and the process exits 1; a non-zero exit
prints the last 20 stdout lines plus stderr and exits 1; a timeout or
launch failure exits 1.  The first component is ok on normal return or
error with the process exit code used by sys.exit; the second is the
CalledProcessError diagnostic when that handler ran. -/
def run_su2_simulation (outcome : ProcOutcome) (artifactExists : Bool) :
    Except Nat Unit × Option FailureDiag :=
  match outcome with
  | .ok _ _ => if artifactExists then (.ok (), none) else (.error 1, none)
  | .nonzero c out err => (.error 1, some ⟨c, lastN 20 out, err⟩)
  | .timeout => (.error 1, none)
  | .launchFail => (.error 1, none)

/-- The post-processing stage run_plot_script: a non-zero exit prints
the exit code and stderr only (the handler never prints stdout) and
exits 1; other failures propagate to the caller, which also exits 1. -/
def run_plot_script (outcome : ProcOutcome) : Except Nat Unit × Option FailureDiag :=
  match outcome with
  | .ok _ _ => (.ok (), none)
  | .nonzero c _ err => (.error 1, some ⟨c, [], err⟩)
  | .timeout => (.error 1, none)
  | .launchFail => (.error 1, none)

/-- The environment a pipeline run observes: whether the dependency
and file checks pass, what the solver process does, whether the
solution artifact exists afterwards, and what the plot process does. -/
structure World where
  depsOk : Bool
  filesOk : Bool
  solverOutcome : ProcOutcome
  artifactExists : Bool
  plotOutcome : ProcOutcome

/-- The observable result of main: whether the post-processing stage
was ever started, and the process exit code (0 for full success). -/
structure MainTrace where
  postProcessStarted : Bool
  exitCode : Nat
deriving DecidableEq

/-- The orchestrator main: dependency check, file check, solver stage,
then post-processing stage, stopping at the first failing step with a
non-zero exit code. -/
def main (w : World) : MainTrace :=
  if !w.depsOk then ⟨false, 1⟩
  else if !w.filesOk then ⟨false, 1⟩
  else
    match (run_su2_simulation w.solverOutcome w.artifactExists).1 with
    | .error c => ⟨false, c⟩
    | .ok _ =>
      match (run_plot_script w.plotOutcome).1 with
      | .error c => ⟨true, c⟩
      | .ok _ => ⟨true, 0⟩

end Automation

namespace Plot

theorem runLines_cons (st : PState) (l : Line) (ls : List Line) :
    runLines st (l :: ls) = runLines (parseLine st l) ls := rfl

theorem dictGet_dictSet {α : Type} (k key : Int) (v : α) (m : List (Int × α)) :
    dictGet key (dictSet k v m) = if key = k then some v else dictGet key m := by
  induction m with
  | nil =>
    by_cases h : key = k
    · simp [dictSet, dictGet, h]
    · simp [dictSet, dictGet, h, Ne.symm h]
  | cons p t ih =>
    obtain ⟨k0, v0⟩ := p
    by_cases h0 : k0 = k
    · by_cases h : key = k
      · simp [dictSet, dictGet, h0, h]
      · have hk0 : ¬k0 = key := by rw [h0]; exact Ne.symm h
        simp [dictSet, dictGet, h0, h, hk0, Ne.symm h]
    · by_cases hk0 : k0 = key
      · have h : ¬key = k := fun hh => h0 (hk0.trans hh)
        simp [dictSet, dictGet, h0, hk0, h]
      · simp [dictSet, dictGet, h0, hk0, ih]

theorem commit_presence (st : PState) (key : Int) :
    (dictGet key (commitZone st)).isSome = true ↔
      (dictGet key st.exp_data).isSome = true ∨
        key ∈ emitKeys st.current_x (!st.current_data.isEmpty) := by
  obtain ⟨cx, cd, m⟩ := st
  cases cx with
  | none => simp [commitZone, emitKeys]
  | some x =>
    by_cases hcd : cd = []
    · subst hcd; simp [commitZone, emitKeys]
    · have hemp : cd.isEmpty = false := by simpa [List.isEmpty_iff] using hcd
      simp only [commitZone, if_neg hcd, emitKeys, hemp, Bool.not_false, if_true]
      rw [dictGet_dictSet]
      by_cases h : key = x <;> simp [h, or_comm]

theorem runLines_presence (ls : List Line) :
    ∀ (cx : Option Int) (cd : List Row) (m : List (Int × List Row)) (key : Int),
      (dictGet key (commitZone (runLines ⟨cx, cd, m⟩ ls))).isSome = true ↔
        (dictGet key m).isSome = true ∨ key ∈ zonesWithRows cx (!cd.isEmpty) ls := by
  induction ls with
  | nil =>
    intro cx cd m key
    simpa [runLines, zonesWithRows] using commit_presence ⟨cx, cd, m⟩ key
  | cons l ls ih =>
    intro cx cd m key
    rw [runLines_cons]
    by_cases hz : containsSub zoneMarker l = true
    · cases hk : extractKey l with
      | some k =>
        have hstep : parseLine ⟨cx, cd, m⟩ l = ⟨some k, [], commitZone ⟨cx, cd, m⟩⟩ := by
          simp [parseLine, zoneStep, hz, hk]
        rw [hstep, ih (some k) [] (commitZone ⟨cx, cd, m⟩) key,
          commit_presence ⟨cx, cd, m⟩ key]
        simp [zonesWithRows, hz, hk, or_assoc]
      | none =>
        have hstep : parseLine ⟨cx, cd, m⟩ l = ⟨cx, cd, commitZone ⟨cx, cd, m⟩⟩ := by
          simp [parseLine, zoneStep, hz, hk]
        rw [hstep, ih cx cd (commitZone ⟨cx, cd, m⟩) key,
          commit_presence ⟨cx, cd, m⟩ key]
        simp [zonesWithRows, hz, hk, or_assoc]
    · by_cases hv : containsSub variablesMarker l = true
      · have hstep : parseLine ⟨cx, cd, m⟩ l = ⟨cx, cd, m⟩ := by
          simp [parseLine, hz, hv]
        rw [hstep, ih cx cd m key]
        simp [zonesWithRows, hz, hv]
      · cases hr : parseRow l with
        | some r =>
          have hstep : parseLine ⟨cx, cd, m⟩ l = ⟨cx, cd ++ [r], m⟩ := by
            simp [parseLine, hz, hv, hr]
          rw [hstep, ih cx (cd ++ [r]) m key]
          have hemp : (cd ++ [r]).isEmpty = false := by simp
          simp [zonesWithRows, hz, hv, hr, hemp]
        | none =>
          have hstep : parseLine ⟨cx, cd, m⟩ l = ⟨cx, cd, m⟩ := by
            simp [parseLine, hz, hv, hr]
          rw [hstep, ih cx cd m key]
          simp [zonesWithRows, hz, hv, hr]

end Plot

namespace Plot

theorem processLoop_error (probe : ℚ → List (ℚ × ℚ)) (lenScale : List (Int × ℚ)) :
    ∀ (positions : List (ℚ × Int)) (acc : List (Int × SimProfile)) (k : Int),
      firstMissingKey lenScale positions = some k →
      processLoop probe lenScale positions acc = .error k := by
  intro positions
  induction positions with
  | nil => intro acc k h; simp [firstMissingKey] at h
  | cons p rest ih =>
    obtain ⟨x_m, x_mm⟩ := p
    intro acc k h
    cases hd : dictGet x_mm lenScale with
    | none =>
      simp [firstMissingKey, hd] at h
      subst h
      simp [processLoop, hd]
    | some d =>
      simp [firstMissingKey, hd] at h
      simp only [processLoop, hd]
      exact ih _ k h

theorem runLines_no_valid_marker :
    ∀ (ls : List Line), (∀ l ∈ ls, extractKey l = none) →
      ∀ cd, ∃ cd', runLines ⟨none, cd, []⟩ ls = ⟨none, cd', []⟩ := by
  intro ls
  induction ls with
  | nil => intro _ cd; exact ⟨cd, rfl⟩
  | cons l ls ih =>
    intro h cd
    have hl : extractKey l = none := h l (by simp)
    have ht : ∀ x ∈ ls, extractKey x = none := fun x hx => h x (by simp [hx])
    by_cases hz : containsSub zoneMarker l = true
    · have hstep : parseLine ⟨none, cd, []⟩ l = ⟨none, cd, []⟩ := by
        simp [parseLine, zoneStep, hz, hl, commitZone]
      rw [runLines_cons, hstep]
      exact ih ht cd
    · by_cases hv : containsSub variablesMarker l = true
      · have hstep : parseLine ⟨none, cd, []⟩ l = ⟨none, cd, []⟩ := by
          simp [parseLine, hz, hv]
        rw [runLines_cons, hstep]
        exact ih ht cd
      · cases hr : parseRow l with
        | some r =>
          have hstep : parseLine ⟨none, cd, []⟩ l = ⟨none, cd ++ [r], []⟩ := by
            simp [parseLine, hz, hv, hr]
          rw [runLines_cons, hstep]
          exact ih ht (cd ++ [r])
        | none =>
          have hstep : parseLine ⟨none, cd, []⟩ l = ⟨none, cd, []⟩ := by
            simp [parseLine, hz, hv, hr]
          rw [runLines_cons, hstep]
          exact ih ht cd

theorem dropWhileWs_append_hash (l : Line) :
    (l ++ ['#']).dropWhile Char.isWhitespace ≠ [] := by
  induction l with
  | nil => decide
  | cons c l ih =>
    by_cases h : c.isWhitespace = true
    · simpa [List.dropWhile_cons, h] using ih
    · simp [List.dropWhile_cons, h]

theorem pyStrip_ws_hash_ne_nil (c : Char) (hws : c.isWhitespace = true) (rest : Line) :
    pyStrip (c :: '#' :: rest) ≠ [] := by
  have h1 : (c :: '#' :: rest).dropWhile Char.isWhitespace = '#' :: rest := by
    rw [List.dropWhile_cons, if_pos hws, List.dropWhile_cons]
    simp
  intro hemp
  unfold pyStrip at hemp
  rw [h1, List.reverse_cons, List.reverse_eq_nil_iff] at hemp
  exact dropWhileWs_append_hash rest.reverse hemp

end Plot

namespace Plot

/-- C1 (amended): when the length-scale mapping has no entry for some
requested key, process_simulation_data aborts the whole call at the
first such key in request order: the lookup error is logged and
re-raised, the call returns that error, and no profile mapping is
returned, not even for requested keys that do have entries. -/
theorem missing_length_scale_aborts_call (probe : ℚ → List (ℚ × ℚ))
    (lenScale : List (Int × ℚ)) (positions : List (ℚ × Int)) (k : Int)
    (h : firstMissingKey lenScale positions = some k) :
    process_simulation_data probe lenScale positions = .error k :=
  processLoop_error probe lenScale positions [] k h

/-- Witness for the C1 theorem at a concrete call: the table holds key
50 but not key 1, the first requested key is 1, and the whole call
returns the error for key 1. -/
theorem missing_length_scale_aborts_call_witness :
    firstMissingKey [(50, 1)] [(mkRat 1 1000, 1), (mkRat 50 1000, 50)] = some 1 ∧
    process_simulation_data (fun _ => [(0, 0)]) [(50, 1)]
      [(mkRat 1 1000, 1), (mkRat 50 1000, 50)] = .error 1 :=
  ⟨rfl, missing_length_scale_aborts_call (fun _ => [(0, 0)]) [(50, 1)]
    [(mkRat 1 1000, 1), (mkRat 50 1000, 50)] 1 rfl⟩

/-- C1 counterexample: the claim says the key 1 should fail alone with
a profile still produced for key 50, whose length-scale entry exists;
instead the call returns the error for key 1 and no mapping at all
(toOption is none), so no partial result reaches the assembler. -/
theorem missing_length_scale_no_partial_cex :
    process_simulation_data (fun _ => [(0, 22)]) [(50, 1)]
      [(mkRat 1 1000, 1), (mkRat 50 1000, 50)] = .error 1 ∧
    (process_simulation_data (fun _ => [(0, 22)]) [(50, 1)]
      [(mkRat 1 1000, 1), (mkRat 50 1000, 50)]).toOption = none :=
  ⟨rfl, rfl⟩

/-- C5: velocity normalization is linear and reversible: for every
reference velocity, every non-zero velocity scale and every raw
sampled velocity, multiplying the normalized velocity back by the
scale and adding the reference recovers the raw value. -/
theorem normalization_reversible (ref scale u : ℚ) (h : scale ≠ 0) :
    normalizeUWith ref scale u * scale + ref = u := by
  unfold normalizeUWith
  field_simp

/-- Witness for the C5 theorem at the concrete point ref 3, scale 2,
raw velocity 5. -/
theorem normalization_reversible_witness :
    (2 : ℚ) ≠ 0 ∧ normalizeUWith 3 2 5 * 2 + 3 = 5 :=
  ⟨two_ne_zero, normalization_reversible 3 2 5 two_ne_zero⟩

/-- C7 (amended): create_plots produces exactly one comparison entry
per key of the fixed request list x_positions_mm, in that order, each
holding whichever of the simulation and experimental series is present
for the key; a key present only in one of the datasets but not in the
request list receives no entry. -/
theorem create_plots_fixed_keys (expD : List (Int × List Row))
    (simD : List (Int × SimProfile)) :
    create_plots expD simD =
      [⟨1, dictGet 1 simD, dictGet 1 expD⟩,
       ⟨50, dictGet 50 simD, dictGet 50 expD⟩,
       ⟨200, dictGet 200 simD, dictGet 200 expD⟩,
       ⟨650, dictGet 650 simD, dictGet 650 expD⟩,
       ⟨950, dictGet 950 simD, dictGet 950 expD⟩] := rfl

/-- C7 counterexample: key 2 is present in the experimental dataset,
so the claimed union rule demands an entry for it, but create_plots
produces entries only for the five fixed keys and none for key 2. -/
theorem create_plots_ignores_extra_key_cex :
    dictGet 2 [(2, [((0 : ℚ), (0 : ℚ), (0 : ℚ))])] = some [(0, 0, 0)] ∧
    (create_plots [(2, [(0, 0, 0)])] []).map PlotEntry.key = [1, 50, 200, 650, 950] ∧
    (2 : Int) ∉ (create_plots [(2, [(0, 0, 0)])] []).map PlotEntry.key := by
  refine ⟨rfl, rfl, ?_⟩
  decide

end Plot

namespace Automation

/-- C3: whenever the solution artifact is absent after the solver
stage, the post-processing stage is never started, whatever the solver
process reported, and the pipeline exits with a non-zero code. -/
theorem no_postprocess_without_artifact (w : World) (h : w.artifactExists = false) :
    (main w).postProcessStarted = false ∧ (main w).exitCode ≠ 0 := by
  obtain ⟨deps, files, so, ae, po⟩ := w
  simp only at h
  subst h
  cases deps <;> cases files <;> cases so <;>
    simp [main, run_su2_simulation]

/-- Witness for the C3 theorem at a concrete world where the solver
exits cleanly but the artifact file is missing. -/
theorem no_postprocess_without_artifact_witness :
    (World.mk true true (.ok ["done"] "") false (.ok [] "")).artifactExists = false ∧
    ((main ⟨true, true, .ok ["done"] "", false, .ok [] ""⟩).postProcessStarted = false ∧
     (main ⟨true, true, .ok ["done"] "", false, .ok [] ""⟩).exitCode ≠ 0) :=
  ⟨rfl, no_postprocess_without_artifact ⟨true, true, .ok ["done"] "", false, .ok [] ""⟩ rfl⟩

/-- C8 (amended): on a non-zero process exit the solver stage reports
the exit code, exactly the last 20 captured stdout lines and the
captured stderr, and exits 1 with no retry; the post-processing stage
reports the exit code and the captured stderr only, printing no stdout
at all, and exits 1 with no retry. -/
theorem nonzero_exit_diagnostics (c : Int) (out : List String) (err : String) (ae : Bool) :
    run_su2_simulation (.nonzero c out err) ae = (.error 1, some ⟨c, lastN 20 out, err⟩) ∧
    run_plot_script (.nonzero c out err) = (.error 1, some ⟨c, [], err⟩) :=
  ⟨rfl, rfl⟩

/-- C8 counterexample: a failing post-processing run with a non-empty
captured stdout: the handler reports stderr with an empty stdout tail,
not the unrestricted stdout the claim describes. -/
theorem plot_stage_stdout_not_reported_cex :
    (run_plot_script (.nonzero 2 ["plot traceback line"] "boom")).2 =
      some ⟨2, [], "boom"⟩ ∧
    (run_plot_script (.nonzero 2 ["plot traceback line"] "boom")).2 ≠
      some ⟨2, ["plot traceback line"], "boom"⟩ := by
  refine ⟨rfl, ?_⟩
  intro hEq
  simp [run_plot_script] at hEq

end Automation

namespace Plot

/-- C2 (amended): a zone-start marker whose quoted label does not
parse as a number raises no fatal error and opens no new zone, and it
still commits the zone that was open; but the continue statement skips
the row-list reset, so the previous key stays current with its rows
still accumulated, and every data row between the invalid marker and
the next valid marker is appended to the previous zone rather than
dropped (the previous zone is then re-committed with those extra rows
at the next valid marker or at end of input). -/
theorem invalid_zone_marker_keeps_zone_state (st : PState) (l : Line)
    (hz : containsSub zoneMarker l = true) (hk : extractKey l = none) :
    parseLine st l = ⟨st.current_x, st.current_data, commitZone st⟩ ∧
    ∀ (r : Row) (lr : Line), containsSub zoneMarker lr = false →
      containsSub variablesMarker lr = false → parseRow lr = some r →
      parseLine (parseLine st l) lr =
        ⟨st.current_x, st.current_data ++ [r], commitZone st⟩ := by
  constructor
  · simp [parseLine, zoneStep, hz, hk]
  · intro r lr h1 h2 h3
    simp [parseLine, zoneStep, hz, hk, h1, h2, h3]

/-- Witness for the C2 theorem: a concrete invalid marker line met in
the state where zone 1 is open with one row; the state keeps key 1 and
its row, and a following data row is appended under key 1. -/
theorem invalid_zone_marker_keeps_zone_state_witness :
    containsSub zoneMarker "ZONE T=\"x=abc\"".toList = true ∧
    extractKey "ZONE T=\"x=abc\"".toList = none ∧
    parseLine (PState.mk (some 1) [(1, 2, 3)] []) "ZONE T=\"x=abc\"".toList =
      ⟨some 1, [(1, 2, 3)], commitZone ⟨some 1, [(1, 2, 3)], []⟩⟩ ∧
    parseLine (parseLine ⟨some 1, [(1, 2, 3)], []⟩ "ZONE T=\"x=abc\"".toList)
        "0 1 2 3 4".toList =
      ⟨some 1, [(1, 2, 3), (1, 2, 4)], commitZone ⟨some 1, [(1, 2, 3)], []⟩⟩ := by
  have h := invalid_zone_marker_keeps_zone_state ⟨some 1, [(1, 2, 3)], []⟩
    "ZONE T=\"x=abc\"".toList (by decide) (by decide)
  exact ⟨by decide, by decide, h.1,
    h.2 (1, 2, 4) "0 1 2 3 4".toList (by decide) (by decide) (by decide)⟩

/-- C2 counterexample: the claim says data rows between the invalid
marker and the next valid marker appear in no zone of the result; here
the row with fields 11 21 41 follows the invalid marker and ends up in
zone 1, which is also re-committed with that extra row. -/
theorem invalid_zone_rows_not_dropped_cex :
    load_exp_data
      ["ZONE T=\"x=1mm\"".toList, "0 10 20 30 40".toList,
       "ZONE T=\"x=abc\"".toList, "0 11 21 31 41".toList,
       "ZONE T=\"x=50mm\"".toList, "0 12 22 32 42".toList] =
      [(1, [(10, 20, 40), (11, 21, 41)]), (50, [(12, 22, 42)])] := by decide

/-- C4: for a file whose zone markers all carry valid numeric labels,
a key is present in the parsed mapping exactly when some zone with
that key accumulated at least one valid data row; zones with zero
accumulated rows are absent, and a zone open at end of input with at
least one row is committed (the end-of-input flush is part of
zonesWithRows). -/
theorem parse_exactly_nonempty_zones (rawLines : List Line)
    (hvalid : ∀ l ∈ preprocess rawLines,
      containsSub zoneMarker l = true → extractKey l ≠ none) :
    ∀ key : Int, (dictGet key (load_exp_data rawLines)).isSome = true ↔
      key ∈ zonesWithRows none false (preprocess rawLines) := by
  intro key
  have h := runLines_presence (preprocess rawLines) none [] [] key
  simpa [load_exp_data, dictGet] using h

/-- Witness for the C4 theorem on a concrete file with two valid zone
markers, where zone 50 has one row and zone 200 has none: key 50 is
present, matching its membership in zonesWithRows. -/
theorem parse_exactly_nonempty_zones_witness :
    (∀ l ∈ preprocess ["ZONE T=\"x=50mm\"".toList, "0 1 2 3 4".toList,
        "ZONE T=\"x=200mm\"".toList],
      containsSub zoneMarker l = true → extractKey l ≠ none) ∧
    ((dictGet 50 (load_exp_data ["ZONE T=\"x=50mm\"".toList, "0 1 2 3 4".toList,
        "ZONE T=\"x=200mm\"".toList])).isSome = true ↔
      50 ∈ zonesWithRows none false (preprocess ["ZONE T=\"x=50mm\"".toList,
        "0 1 2 3 4".toList, "ZONE T=\"x=200mm\"".toList])) :=
  ⟨by decide, parse_exactly_nonempty_zones
    ["ZONE T=\"x=50mm\"".toList, "0 1 2 3 4".toList, "ZONE T=\"x=200mm\"".toList]
    (by decide) 50⟩

/-- C6 (amended): the parsing loop raises nothing.  A data row that no
open zone can claim is silently dropped: a file none of whose lines
carries a parsable zone label parses to the empty mapping, and an
unparsable row met in any state leaves the state unchanged (rows are
skipped silently inside an open zone too). -/
theorem parser_total_and_tolerant :
    (∀ rawLines : List Line, (∀ l ∈ preprocess rawLines, extractKey l = none) →
      load_exp_data rawLines = []) ∧
    (∀ (st : PState) (l : Line), containsSub zoneMarker l = false →
      containsSub variablesMarker l = false → parseRow l = none →
      parseLine st l = st) := by
  constructor
  · intro raw h
    obtain ⟨cd', hcd⟩ := runLines_no_valid_marker (preprocess raw) h []
    simp [load_exp_data, hcd, commitZone]
  · intro st l h1 h2 h3
    simp [parseLine, h1, h2, h3]

/-- Witness for the C6 theorem: a lone data row before any zone marker
parses without error to the empty mapping, and an unparsable line
inside an open zone leaves the state unchanged. -/
theorem parser_total_and_tolerant_witness :
    load_exp_data ["0 1 2 3 4".toList] = [] ∧
    parseLine (PState.mk (some 1) [] []) "abc".toList = ⟨some 1, [], []⟩ :=
  ⟨parser_total_and_tolerant.1 ["0 1 2 3 4".toList] (by decide),
   parser_total_and_tolerant.2 ⟨some 1, [], []⟩ "abc".toList
     (by decide) (by decide) (by decide)⟩

/-- C6 counterexample: the claim says a data row appearing before any
valid zone marker makes parse fail with MalformedExperimentalData; the
code instead returns successfully with an empty mapping, silently
dropping the row — every risky step of the loop sits inside a silent
handler, so no input reaches an error. -/
theorem row_before_zone_no_error_cex :
    load_exp_data ["0 1 2 3 4".toList] = [] := by decide

/-- C9: the zone key is int(float(label)), truncating toward zero, so
two zone-start lines whose labels truncate to the same integer map to
the same key, and when two such zones follow each other the rows of
the later zone replace the rows of the earlier one in the result
mapping (the dict assignment overwrites the key). -/
theorem zone_key_truncation_last_wins
    (l1 l2 lr1 lr2 : Line) (q1 q2 : ℚ) (r1 r2 : Row)
    (hz1 : containsSub zoneMarker l1 = true) (hz2 : containsSub zoneMarker l2 = true)
    (h1 : zoneLabelQ l1 = some q1) (h2 : zoneLabelQ l2 = some q2)
    (heq : truncQ q1 = truncQ q2)
    (hr1z : containsSub zoneMarker lr1 = false)
    (hr1v : containsSub variablesMarker lr1 = false) (hr1 : parseRow lr1 = some r1)
    (hr2z : containsSub zoneMarker lr2 = false)
    (hr2v : containsSub variablesMarker lr2 = false) (hr2 : parseRow lr2 = some r2) :
    extractKey l1 = extractKey l2 ∧
    commitZone (runLines ⟨none, [], []⟩ [l1, lr1, l2, lr2]) = [(truncQ q1, [r2])] := by
  have hk1 : extractKey l1 = some (truncQ q1) := by simp [extractKey, h1]
  have hk2 : extractKey l2 = some (truncQ q1) := by simp [extractKey, h2, ← heq]
  refine ⟨by rw [hk1, hk2], ?_⟩
  simp [runLines, parseLine, zoneStep, hz1, hz2, hk1, hk2, hr1z, hr1v, hr1,
    hr2z, hr2v, hr2, commitZone, dictSet]

/-- Witness for the C9 theorem at the labels 200.2mm and 200.9mm of
the claim: both truncate to key 200 and the second zone replaces the
rows of the first. -/
theorem zone_key_truncation_last_wins_witness :
    truncQ (mkRat 2002 10) = truncQ (mkRat 2009 10) ∧
    extractKey "ZONE T=\"x=200.2mm\"".toList = extractKey "ZONE T=\"x=200.9mm\"".toList ∧
    commitZone (runLines ⟨none, [], []⟩
      ["ZONE T=\"x=200.2mm\"".toList, "0 1 2 3 4".toList,
       "ZONE T=\"x=200.9mm\"".toList, "0 5 6 7 8".toList]) =
      [(truncQ (mkRat 2002 10), [(5, 6, 8)])] := by
  have h := zone_key_truncation_last_wins
    "ZONE T=\"x=200.2mm\"".toList "ZONE T=\"x=200.9mm\"".toList
    "0 1 2 3 4".toList "0 5 6 7 8".toList (mkRat 2002 10) (mkRat 2009 10)
    (1, 2, 4) (5, 6, 8) (by decide) (by decide) (by decide) (by decide)
    (by decide) (by decide) (by decide) (by decide) (by decide) (by decide)
    (by decide)
  exact ⟨by decide, h.1, h.2⟩

/-- C10: a line is treated as a comment only when the marker is the
very first character of the raw line: a raw line beginning with a
whitespace character followed by the comment marker is not filtered
out; it survives preprocessing as its stripped form, and when that
form contains the zone-start marker text the loop processes it through
the zone-start branch. -/
theorem comment_marker_first_column_only
    (c : Char) (hws : c.isWhitespace = true) (rest : Line) (st : PState) :
    startsWithHash (c :: '#' :: rest) = false ∧
    preprocess [c :: '#' :: rest] = [pyStrip (c :: '#' :: rest)] ∧
    (containsSub zoneMarker (pyStrip (c :: '#' :: rest)) = true →
      parseLine st (pyStrip (c :: '#' :: rest)) =
        zoneStep st (pyStrip (c :: '#' :: rest))) := by
  have hchar : (c == '#') = false := by
    have hc : c = ' ' ∨ c = '\t' ∨ c = '\r' ∨ c = '\n' := by
      simpa [Char.isWhitespace, or_assoc] using hws
    rcases hc with h | h | h | h <;> subst h <;> decide
  have hhash : startsWithHash (c :: '#' :: rest) = false := by
    simp [startsWithHash, hchar]
  have hne : pyStrip (c :: '#' :: rest) ≠ [] := pyStrip_ws_hash_ne_nil c hws rest
  have hemp : (pyStrip (c :: '#' :: rest)).isEmpty = false := by
    simpa [List.isEmpty_iff] using hne
  refine ⟨hhash, ?_, ?_⟩
  · simp [preprocess, hemp, hhash]
  · intro hz
    simp [parseLine, hz]

/-- Witness for the C10 theorem: a raw line consisting of one space,
the comment marker, and then zone-start marker text is kept by the
filter and handled by the zone-start branch. -/
theorem comment_marker_first_column_only_witness :
    (' ' : Char).isWhitespace = true ∧
    startsWithHash (' ' :: '#' :: "ZONE T=\"x=1mm\"".toList) = false ∧
    parseLine (PState.mk (some 7) [(1, 1, 1)] [])
        (pyStrip (' ' :: '#' :: "ZONE T=\"x=1mm\"".toList)) =
      zoneStep ⟨some 7, [(1, 1, 1)], []⟩
        (pyStrip (' ' :: '#' :: "ZONE T=\"x=1mm\"".toList)) := by
  have h := comment_marker_first_column_only ' ' (by decide)
    "ZONE T=\"x=1mm\"".toList ⟨some 7, [(1, 1, 1)], []⟩
  exact ⟨by decide, h.1, h.2.2 (by decide)⟩

end Plot
